import Mathlib

/-!
Verification of `dump_wfs.py`: a WFS feature dumper that streams features from
a remote layer, retries transient read failures with exponential backoff,
captures the field schema from the first feature, and prints one compact JSON
record per non-null geometry field of each feature to standard output (NDJSON).

The embedding translates the script's control flow directly:
  * `Json` / `serialize` model the values passed to
    `json.dump(..., ensure_ascii=False, separators=(',',':'))` and the compact
    single-line text it produces (including string escaping).
  * `Feature`, `Geom` model the data the script reads from the external OGR
    cursor; the external geometry pipeline
    (`GetLinearGeometry` / `ExportToWkb` / `shapely.wkb.loads` /
    `shapely.geometry.mapping`) is modelled by the `Geom.mappingResult` field,
    which is the GeoJSON type/coordinates it yields — or an error, modelling an
    exception raised inside that pipeline.
  * `runIter` is the `while True:` loop of `get_features` fused with the
    consumer body of `print_features_geojson` (the generator is a pull chain:
    each yielded feature is fully processed before the loop resumes).  The
    cursor is modelled as a finite list of `FetchResult` outcomes; if the loop
    would fetch past its end the run stops with the artificial status
    `inputEnded`.
  * stderr is modelled as structured `Diag` messages (the diagnostics are
    human-readable and never parsed), stdout as the list of emitted NDJSON
    lines, and `Event` records fetch attempts, backoff sleeps, schema capture
    and per-feature schema use for the temporal claims.
-/

namespace DumpWfs

/-! ## JSON values and the compact serializer (`json.dump` model) -/

inductive Json where
  | null : Json
  | bool (b : Bool) : Json
  | num (n : Int) : Json
  | str (s : String) : Json
  | arr (xs : List Json) : Json
  | obj (kvs : List (String × Json)) : Json

/-- Decimal digit characters, used for number serialization. -/
def digitChar (k : Nat) : Char :=
  if k = 0 then '0' else if k = 1 then '1' else if k = 2 then '2'
  else if k = 3 then '3' else if k = 4 then '4' else if k = 5 then '5'
  else if k = 6 then '6' else if k = 7 then '7' else if k = 8 then '8' else '9'

/-- Hexadecimal digit characters, used for control-character escapes. -/
def hexChar (k : Nat) : Char :=
  if k < 10 then digitChar k
  else if k = 10 then 'a' else if k = 11 then 'b' else if k = 12 then 'c'
  else if k = 13 then 'd' else if k = 14 then 'e' else 'f'

def natToStr (n : Nat) : String :=
  if n < 10 then String.singleton (digitChar n)
  else natToStr (n / 10) ++ String.singleton (digitChar (n % 10))
decreasing_by exact Nat.div_lt_self (by omega) (by omega)

def intToStr (i : Int) : String :=
  if i < 0 then "-" ++ natToStr i.natAbs else natToStr i.natAbs

/-- One character of a JSON string literal as `json.dump` with
`ensure_ascii=False` writes it: `"` and `\` and control characters are
escaped, everything else passes through unchanged. -/
def escapeChar (c : Char) : String :=
  if c = '"' then "\\\""
  else if c = '\\' then "\\\\"
  else if c = '\n' then "\\n"
  else if c = '\r' then "\\r"
  else if c = '\t' then "\\t"
  else if c = '\x08' then "\\b"
  else if c = '\x0c' then "\\f"
  else if c.toNat < 32 then
    "\\u00" ++ String.singleton (hexChar (c.toNat / 16)) ++ String.singleton (hexChar (c.toNat % 16))
  else String.singleton c

def escapeChars : List Char → String
  | [] => ""
  | c :: t => escapeChar c ++ escapeChars t

/-- A JSON string literal: quotes around the escaped characters. -/
def quoteStr (s : String) : String := "\"" ++ escapeChars s.data ++ "\""

mutual
/-- Compact JSON serialization: separators `(',', ':')`, no extra whitespace. -/
def serialize : Json → String
  | .null => "null"
  | .bool true => "true"
  | .bool false => "false"
  | .num n => intToStr n
  | .str s => quoteStr s
  | .arr xs => "[" ++ serializeList xs ++ "]"
  | .obj kvs => "\x7b" ++ serializeObj kvs ++ "\x7d"

def serializeList : List Json → String
  | [] => ""
  | [j] => serialize j
  | j :: t => serialize j ++ "," ++ serializeList t

def serializeObj : List (String × Json) → String
  | [] => ""
  | [(k, v)] => quoteStr k ++ ":" ++ serialize v
  | (k, v) :: t => quoteStr k ++ ":" ++ serialize v ++ "," ++ serializeObj t
end

/-! ## Scalar attribute values -/

/-- A scalar attribute value as read by `feat.GetField(i)` and passed through
unchanged into the `properties` object. -/
inductive Scalar where
  | str (s : String) : Scalar
  | num (n : Int) : Scalar
  | bool (b : Bool) : Scalar
  | null : Scalar
deriving DecidableEq, Repr

def scalarToJson : Scalar → Json
  | .str s => .str s
  | .num n => .num n
  | .bool b => .bool b
  | .null => .null

/-! ## Features and geometry, as read from the external cursor -/

/-- A geometry value, opaque to the script.  The external pipeline
`geom.GetLinearGeometry()` → `.ExportToWkb()` → `shapely.wkb.loads` →
`shapely.geometry.mapping` either yields a GeoJSON type tag plus coordinates
(the script never inspects them) or raises an exception.  `mappingResult`
records which. -/
structure Geom where
  mappingResult : Except String (String × Json)

/-- One raw feature as the OGR cursor presents it: positional attribute field
definitions/values (`GetFieldDefnRef(i)` / `GetField(i)`) and positional
geometry field definitions/values (`GetGeomFieldDefnRef(i)` /
`GetGeomFieldRef(i)`, which may be null). -/
structure Feature where
  attrNames : List String
  attrValues : List Scalar
  geomNames : List String
  geomValues : List (Option Geom)

/-- `attrs = {k: feat.GetField(i) for i,k in enumerate(names)}` — the cached
name list is enumerated and values are read positionally from the current
feature. -/
def extractAttrs (names : List String) (f : Feature) : List (String × Scalar) :=
  names.enum.map (fun p => (p.2, f.attrValues.getD p.1 Scalar.null))

/-- `g_attrs = {k: feat.GetGeomFieldRef(i) for i,k in enumerate(gnames)}`. -/
def extractGeoms (gnames : List String) (f : Feature) : List (String × Option Geom) :=
  gnames.enum.map (fun p => (p.2, (f.geomValues.getD p.1 none)))

/-! ## The NDJSON record -/

def attrsJson (attrs : List (String × Scalar)) : Json :=
  Json.obj (attrs.map (fun p => (p.1, scalarToJson p.2)))

/-- `geo_dict` after `geo_dict['properties'] = attributes`: the mapping dict
(keys `type`, `coordinates` in insertion order) with `properties` appended. -/
def recordJson (gtype : String) (coords : Json) (attrs : List (String × Scalar)) : Json :=
  Json.obj [("type", Json.str gtype), ("coordinates", coords), ("properties", attrsJson attrs)]

/-- The text `json.dump(geo_dict, sys.stdout, ensure_ascii=False,
separators=(',',':'))` writes for one record. -/
def recordLine (gtype : String) (coords : Json) (attrs : List (String × Scalar)) : String :=
  serialize (recordJson gtype coords attrs)

/-- What one stdout line looks like on the wire: the record text of the
`json.dump` call followed by the single newline of the bare `print()`. -/
def emitLine (line : String) : String := line ++ "\n"

/-! ## Diagnostics (stderr) -/

/-- Structured stand-ins for the stderr prints; the diagnostic stream is
human-readable and never machine-parsed, so only identity and payload matter. -/
inductive Diag where
  | traceback : Diag
  | maxRetries (backoff : Nat) : Diag
  | tryingAgain (secs backoff : Nat) : Diag
  | lastFeature : Diag
  | firstFeature : Diag
  | progress (n numFeatures : Nat) : Diag
  | finished : Diag
  | finalCount (n : Nat) : Diag
  | skipEmptyGeom (gname : String) (attrs : List (String × Scalar)) : Diag
deriving DecidableEq, Repr

/-! ## The per-feature consumer body -/

/-- The `for name, geom in geom_attributes.items():` loop of
`print_features_geojson` for one feature: for each geometry field in cached
schema order, a null geometry is skipped with a warning carrying the feature's
attributes; otherwise the geometry pipeline runs and one NDJSON line is
emitted.  Returns (stdout lines, warnings, crashed): `crashed` means the
pipeline raised, which stops the loop at that field — earlier lines of the
same feature are already written. -/
def processGeoms (attrs : List (String × Scalar)) :
    List (String × Option Geom) → List String × List Diag × Bool
  | [] => ([], [], false)
  | (gname, none) :: rest =>
      let r := processGeoms attrs rest
      (r.1, Diag.skipEmptyGeom gname attrs :: r.2.1, r.2.2)
  | (_, some g) :: rest =>
      match g.mappingResult with
      | .error _ => ([], [], true)
      | .ok tc =>
          let r := processGeoms attrs rest
          (recordLine tc.1 tc.2 attrs :: r.1, r.2.1, r.2.2)

/-! ## The paged feature iterator -/

/-- One outcome of `layer.GetNextFeature()`: a feature, a `None` return, or a
raised exception.  The script's cursor is modelled as a finite list of these. -/
inductive FetchResult where
  | ok (f : Feature) : FetchResult
  | null : FetchResult
  | err : FetchResult

/-- How a run of the loop ended.  `aborted`: retry budget exceeded
(`backoff >= 3` on a failure).  `exhausted`: the dead null-check after the
`try` block fired (`if feat is None: ... break` at the loop bottom).
`crashed`: an exception escaped from outside the `try` block (schema capture
with no cached schema, or the geometry/serialization pipeline).  `inputEnded`:
the modelled cursor prefix was used up with the loop still running. -/
inductive Status where
  | aborted : Status
  | exhausted : Status
  | crashed : Status
  | inputEnded : Status
deriving DecidableEq, Repr

/-- Loop state of `get_features`: the `backoff` counter and `n_features`, plus
the captured schema (the locals `names` / `gnames`, present once the first
feature was seen).  `consecFails` is specification instrumentation — the
spec's `consecutive_failures` counter, counting failures since the last
successful advance — used to state the backoff-level invariant. -/
structure IterState where
  backoff : Nat
  consecFails : Nat
  nFeatures : Nat
  schema : Option (List String × List String)
deriving DecidableEq, Repr

def initState : IterState := ⟨0, 0, 0, none⟩

/-- Observable iterator events, for the temporal claims. -/
inductive Event where
  | attempt (backoff consecFails : Nat) : Event
  | sleep (secs : Nat) : Event
  | capture (names gnames : List String) : Event
  | extract (names gnames : List String) : Event
deriving DecidableEq, Repr

/-- The observable outcome of running the loop on a cursor prefix. -/
structure RunOut where
  stdout : List String
  stderr : List Diag
  events : List Event
  status : Status
  endState : IterState
deriving DecidableEq

/-- The `while True:` loop of `get_features`, with each yielded feature
immediately processed by the `print_features_geojson` body (the async
generator is a strict pull chain).  Structure per iteration, matching the
source:

  * fetch: on an exception — a `GetNextFeature` error, or the `None` raised as
    `Out of data?` — the handler prints the traceback; with `backoff >= 3` it
    prints `Maximum retries exceeded` and breaks (then `Finished.` and the
    final count print after the loop), otherwise it prints `Trying again`,
    sleeps `2**backoff` seconds, increments `backoff` and continues;
  * success resets `backoff` to 0; the `if feat is None` check below the
    `try` then re-tests a value that is necessarily non-null;
  * `n_features == 0`: capture `names` / `gnames` from this feature and print
    the first-feature dump (if `n_features` is nonzero without a capture the
    locals are unbound and a `NameError` escapes — `crashed`);
  * build `attrs` / `g_attrs` from the cached schema and yield: the consumer
    prints one line per non-null geometry field, or crashes;
  * `n_features += 1`, and every 10000th record a progress line that divides
    by the estimated `num_features`. -/
def runIter (numFeatures : Nat) (s : IterState) : List FetchResult → RunOut
  | [] => ⟨[], [], [], .inputEnded, s⟩
  | .err :: rest | .null :: rest =>
      if 3 ≤ s.backoff then
        ⟨[], [.traceback, .maxRetries s.backoff, .finished, .finalCount s.nFeatures],
          [.attempt s.backoff s.consecFails], .aborted, s⟩
      else
        let o := runIter numFeatures
          { s with backoff := s.backoff + 1, consecFails := s.consecFails + 1 } rest
        ⟨o.stdout,
          Diag.traceback :: Diag.tryingAgain (2 ^ s.backoff) s.backoff :: o.stderr,
          Event.attempt s.backoff s.consecFails :: Event.sleep (2 ^ s.backoff) :: o.events,
          o.status, o.endState⟩
  | .ok f :: rest =>
      let s1 : IterState := { s with backoff := 0, consecFails := 0 }
      let feat : Option Feature := some f
      match feat with
      | none =>
          ⟨[], [.lastFeature, .finished, .finalCount s1.nFeatures],
            [.attempt s.backoff s.consecFails], .exhausted, s1⟩
      | some ft =>
          let cap : Option (List String × List String × List Event × List Diag) :=
            if s1.nFeatures = 0 then
              some (ft.attrNames, ft.geomNames,
                [Event.capture ft.attrNames ft.geomNames], [Diag.firstFeature])
            else
              match s1.schema with
              | some sch => some (sch.1, sch.2, [], [])
              | none => none
          match cap with
          | none =>
              ⟨[], [], [.attempt s.backoff s.consecFails], .crashed, s1⟩
          | some (ns, gs, cevs, cdgs) =>
              let attrs := extractAttrs ns ft
              let gattrs := extractGeoms gs ft
              let pr := processGeoms attrs gattrs
              if pr.2.2 then
                ⟨pr.1, cdgs ++ pr.2.1,
                  Event.attempt s.backoff s.consecFails :: cevs ++ [Event.extract ns gs],
                  .crashed, { s1 with schema := some (ns, gs) }⟩
              else
                let n2 := s1.nFeatures + 1
                let prog : List Diag :=
                  if n2 % 10000 = 0 then [Diag.progress n2 numFeatures] else []
                let o := runIter numFeatures
                  { backoff := 0, consecFails := 0, nFeatures := n2, schema := some (ns, gs) } rest
                ⟨pr.1 ++ o.stdout,
                  cdgs ++ pr.2.1 ++ prog ++ o.stderr,
                  Event.attempt s.backoff s.consecFails :: cevs ++ Event.extract ns gs :: o.events,
                  o.status, o.endState⟩

/-! ## Top level: estimated count, exit status -/

/-- The feature-count decision of `get_features` (lines 54-62): with a
server-side attribute filter the expensive `GetFeatureCount()` call is
skipped and the arbitrary sentinel `1e6` substituted; otherwise the exact
count is queried.  The boolean records whether `GetFeatureCount()` ran. -/
def estimatedCount (filter : Option String) (exactCount : Nat) : Nat × Bool :=
  match filter with
  | some _ => (1000000, false)
  | none => (exactCount, true)

/-- A full feature-streaming run of the script. -/
def streamRun (filter : Option String) (exactCount : Nat) (trace : List FetchResult) : RunOut :=
  runIter (estimatedCount filter exactCount).1 initState trace

/-- Process exit status by loop outcome: the script has no `sys.exit` after
the loop, so it falls off the end of the module and Python exits 0 unless an
uncaught exception escapes (which exits 1). -/
def exitCode : Status → Nat
  | .crashed => 1
  | _ => 0

/-- The three invocation shapes of the script: missing arguments, an empty
layer name (list layers and `sys.exit(0)`), or a streaming run. -/
inductive Invocation where
  | usage : Invocation
  | listing (numLayers : Nat) : Invocation
  | stream (filter : Option String) (exactCount : Nat) (trace : List FetchResult) : Invocation

/-- Exit status of the whole process: `sys.exit(1)` on the usage error,
`sys.exit(0)` after listing layers, and otherwise the streaming run's
outcome. -/
def mainExit : Invocation → Nat
  | .usage => 1
  | .listing _ => 0
  | .stream filt cnt trace => exitCode (streamRun filt cnt trace).status

end DumpWfs

namespace DumpWfs

/-! ## Observation helpers over runs -/

/-- Number of `GetNextFeature` attempts recorded in an event list. -/
def countAttempts : List Event → Nat
  | [] => 0
  | .attempt _ _ :: t => countAttempts t + 1
  | _ :: t => countAttempts t

/-- The backoff sleep durations of an event list, in order. -/
def sleepsIn : List Event → List Nat
  | [] => []
  | .sleep d :: t => d :: sleepsIn t
  | _ :: t => sleepsIn t

/-- The schema captures of an event list, in order. -/
def capturesIn : List Event → List (List String × List String)
  | [] => []
  | .capture ns gs :: t => (ns, gs) :: capturesIn t
  | _ :: t => capturesIn t

/-- The per-feature schema uses of an event list, in order. -/
def extractsIn : List Event → List (List String × List String)
  | [] => []
  | .extract ns gs :: t => (ns, gs) :: extractsIn t
  | _ :: t => extractsIn t

/-- True when no schema use precedes the first schema capture. -/
def noExtractBeforeCapture : List Event → Bool
  | [] => true
  | .capture _ _ :: _ => true
  | .extract _ _ :: _ => false
  | _ :: t => noExtractBeforeCapture t

/-- The events of `k` consecutive caught fetch failures starting at backoff
level `b` (with `c` failures already accumulated since the last success):
each failure is an attempt followed by a `2 ^ level` sleep. -/
def failEvents (b c : Nat) : Nat → List Event
  | 0 => []
  | k + 1 => .attempt b c :: .sleep (2 ^ b) :: failEvents (b + 1) (c + 1) k

/-- The diagnostics of `k` consecutive caught-and-retried fetch failures
starting at backoff level `b`. -/
def failDiags (b : Nat) : Nat → List Diag
  | 0 => []
  | k + 1 => .traceback :: .tryingAgain (2 ^ b) b :: failDiags (b + 1) k

/-- The loop state after `k` caught-and-retried fetch failures. -/
def advanceFail (s : IterState) (k : Nat) : IterState :=
  { s with backoff := s.backoff + k, consecFails := s.consecFails + k }

/-- The loop state after one successful, fully processed feature. -/
def succState (s : IterState) (ns gs : List String) : IterState :=
  ⟨0, 0, s.nFeatures + 1, some (ns, gs)⟩

/-- Every cursor outcome in the list is a failure: a raised exception or a
`None` return (the two are handled identically by the `except` block). -/
def allFail (fs : List FetchResult) : Prop :=
  ∀ r ∈ fs, r = FetchResult.err ∨ r = FetchResult.null

/-- The per-feature pipeline of `f` raises no exception (every non-null
geometry field survives linearize → WKB → shapely → `json.dump`). -/
def cleanFeature (f : Feature) : Prop :=
  (processGeoms (extractAttrs f.attrNames f) (extractGeoms f.geomNames f)).2.2 = false

/-! ## Concrete inputs used by witnesses and counterexamples -/

/-- A concrete geometry whose pipeline yields a point. -/
def geomA : Geom := ⟨Except.ok ("Point", Json.arr [Json.num 5, Json.num 6])⟩

/-- A concrete feature: one string attribute, one point geometry. -/
def featA : Feature :=
  ⟨["name"], [Scalar.str "x"], ["geom"], [some geomA]⟩

/-- A concrete attribute map. -/
def attrsA : List (String × Scalar) := [("name", Scalar.str "x")]

/-- A concrete geometry field list: one usable field, one null field. -/
def glA : List (String × Option Geom) := [("geom", some geomA), ("empty", none)]

/-- A concrete feature whose only geometry field is null. -/
def featNullGeom : Feature :=
  ⟨["name"], [Scalar.str "x"], ["geom"], [none]⟩

/-- A concrete feature whose geometry pipeline raises. -/
def featCrash : Feature :=
  ⟨["name"], [Scalar.str "x"], ["geom"], [some ⟨Except.error "wkb"⟩]⟩

theorem singleton_data (c : Char) : (String.singleton c).data = [c] := rfl

theorem digitChar_ne_newline (k : Nat) : digitChar k ≠ '\n' := by
  unfold digitChar
  repeat' split
  all_goals decide

theorem hexChar_ne_newline (k : Nat) : hexChar k ≠ '\n' := by
  unfold hexChar
  repeat' split
  all_goals first | exact digitChar_ne_newline k | decide

theorem natToStr_no_newline (n : Nat) : '\n' ∉ (natToStr n).data := by
  induction n using Nat.strong_induction_on with
  | _ n ih =>
    unfold natToStr
    split
    · rw [singleton_data]
      intro h
      exact digitChar_ne_newline n (List.mem_singleton.mp h).symm
    · intro hmem
      rw [String.data_append] at hmem
      rcases List.mem_append.mp hmem with h | h
      · exact ih (n / 10) (Nat.div_lt_self (by omega) (by omega)) h
      · rw [singleton_data] at h
        exact digitChar_ne_newline (n % 10) (List.mem_singleton.mp h).symm

theorem intToStr_no_newline (i : Int) : '\n' ∉ (intToStr i).data := by
  unfold intToStr
  split
  · intro hmem
    rw [String.data_append] at hmem
    rcases List.mem_append.mp hmem with h | h
    · exact absurd h (by decide)
    · exact natToStr_no_newline i.natAbs h
  · exact natToStr_no_newline i.natAbs

theorem escapeChar_no_newline (c : Char) : '\n' ∉ (escapeChar c).data := by
  unfold escapeChar
  split
  · decide
  split
  · decide
  split
  · decide
  split
  · decide
  split
  · decide
  split
  · decide
  split
  · decide
  split
  · intro hmem
    rw [String.data_append, String.data_append] at hmem
    rcases List.mem_append.mp hmem with h | h
    · rcases List.mem_append.mp h with h2 | h2
      · exact absurd h2 (by decide)
      · rw [singleton_data] at h2
        exact hexChar_ne_newline _ (List.mem_singleton.mp h2).symm
    · rw [singleton_data] at h
      exact hexChar_ne_newline _ (List.mem_singleton.mp h).symm
  · rename_i hq hb hn hr ht h8 hc hctl
    rw [singleton_data]
    intro h
    exact hn (List.mem_singleton.mp h).symm

theorem escapeChars_no_newline (cs : List Char) : '\n' ∉ (escapeChars cs).data := by
  induction cs with
  | nil => decide
  | cons c t ih =>
    intro hmem
    rw [escapeChars, String.data_append] at hmem
    rcases List.mem_append.mp hmem with h | h
    · exact escapeChar_no_newline c h
    · exact ih h

theorem quoteStr_no_newline (s : String) : '\n' ∉ (quoteStr s).data := by
  intro hmem
  rw [quoteStr, String.data_append, String.data_append] at hmem
  rcases List.mem_append.mp hmem with h | h
  · rcases List.mem_append.mp h with h2 | h2
    · exact absurd h2 (by decide)
    · exact escapeChars_no_newline s.data h2
  · exact absurd h (by decide)

mutual
theorem serialize_no_newline : (j : Json) → '\n' ∉ (serialize j).data
  | .null => by decide
  | .bool true => by decide
  | .bool false => by decide
  | .num n => intToStr_no_newline n
  | .str s => quoteStr_no_newline s
  | .arr xs => by
      intro hmem
      rw [serialize, String.data_append, String.data_append] at hmem
      rcases List.mem_append.mp hmem with h | h
      · rcases List.mem_append.mp h with h2 | h2
        · exact absurd h2 (by decide)
        · exact serializeList_no_newline xs h2
      · exact absurd h (by decide)
  | .obj kvs => by
      intro hmem
      rw [serialize, String.data_append, String.data_append] at hmem
      rcases List.mem_append.mp hmem with h | h
      · rcases List.mem_append.mp h with h2 | h2
        · exact absurd h2 (by decide)
        · exact serializeObj_no_newline kvs h2
      · exact absurd h (by decide)

theorem serializeList_no_newline : (xs : List Json) → '\n' ∉ (serializeList xs).data
  | [] => by decide
  | [j] => by
      rw [serializeList]
      exact serialize_no_newline j
  | j :: j2 :: t => by
      intro hmem
      rw [show serializeList (j :: j2 :: t) = serialize j ++ "," ++ serializeList (j2 :: t) from rfl,
        String.data_append, String.data_append] at hmem
      rcases List.mem_append.mp hmem with h | h
      · rcases List.mem_append.mp h with h2 | h2
        · exact serialize_no_newline j h2
        · exact absurd h2 (by decide)
      · exact serializeList_no_newline (j2 :: t) h

theorem serializeObj_no_newline : (kvs : List (String × Json)) → '\n' ∉ (serializeObj kvs).data
  | [] => by decide
  | [(k, v)] => by
      intro hmem
      rw [serializeObj, String.data_append, String.data_append] at hmem
      rcases List.mem_append.mp hmem with h | h
      · rcases List.mem_append.mp h with h2 | h2
        · exact quoteStr_no_newline k h2
        · exact absurd h2 (by decide)
      · exact serialize_no_newline v h
  | (k, v) :: p :: t => by
      intro hmem
      rw [show serializeObj ((k, v) :: p :: t) =
            quoteStr k ++ ":" ++ serialize v ++ "," ++ serializeObj (p :: t) from rfl,
        String.data_append, String.data_append, String.data_append,
        String.data_append] at hmem
      rcases List.mem_append.mp hmem with h | h
      · rcases List.mem_append.mp h with h2 | h2
        · rcases List.mem_append.mp h2 with h3 | h3
          · rcases List.mem_append.mp h3 with h4 | h4
            · exact quoteStr_no_newline k h4
            · exact absurd h4 (by decide)
          · exact serialize_no_newline v h3
        · exact absurd h2 (by decide)
      · exact serializeObj_no_newline (p :: t) h
end

theorem recordLine_no_newline (gtype : String) (coords : Json) (attrs : List (String × Scalar)) :
    '\n' ∉ (recordLine gtype coords attrs).data :=
  serialize_no_newline (recordJson gtype coords attrs)

theorem emitLine_one_newline (line : String) (h : '\n' ∉ line.data) :
    ((emitLine line).data.count '\n') = 1 := by
  rw [emitLine, String.data_append]
  rw [List.count_append]
  rw [List.count_eq_zero_of_not_mem h]
  decide

end DumpWfs

namespace DumpWfs

theorem runIter_nil (nf : Nat) (s : IterState) :
    runIter nf s [] = ⟨[], [], [], .inputEnded, s⟩ := rfl

theorem runIter_abort (nf : Nat) (s : IterState) (r : FetchResult) (rest : List FetchResult)
    (hr : r = .err ∨ r = .null) (hb : 3 ≤ s.backoff) :
    runIter nf s (r :: rest) =
      ⟨[], [.traceback, .maxRetries s.backoff, .finished, .finalCount s.nFeatures],
        [.attempt s.backoff s.consecFails], .aborted, s⟩ := by
  rcases hr with h | h <;> subst h <;> simp [runIter, hb]

theorem runIter_fail_step (nf : Nat) (s : IterState) (r : FetchResult) (rest : List FetchResult)
    (hr : r = .err ∨ r = .null) (hb : s.backoff < 3) :
    runIter nf s (r :: rest) =
      ⟨(runIter nf (advanceFail s 1) rest).stdout,
        Diag.traceback :: Diag.tryingAgain (2 ^ s.backoff) s.backoff ::
          (runIter nf (advanceFail s 1) rest).stderr,
        Event.attempt s.backoff s.consecFails :: Event.sleep (2 ^ s.backoff) ::
          (runIter nf (advanceFail s 1) rest).events,
        (runIter nf (advanceFail s 1) rest).status,
        (runIter nf (advanceFail s 1) rest).endState⟩ := by
  rcases hr with h | h <;> subst h <;>
    simp [runIter, advanceFail, Nat.not_le.mpr hb, if_neg]

theorem advanceFail_zero (s : IterState) : advanceFail s 0 = s := by
  cases s; simp [advanceFail]

theorem advanceFail_shift (s : IterState) (k : Nat) :
    advanceFail (advanceFail s 1) k = advanceFail s (k + 1) := by
  cases s; simp [advanceFail]; omega

theorem runIter_fail_prefix (nf : Nat) (fs : List FetchResult) :
    ∀ s : IterState, allFail fs → s.backoff + fs.length ≤ 3 → ∀ rest,
    runIter nf s (fs ++ rest) =
      ⟨(runIter nf (advanceFail s fs.length) rest).stdout,
        failDiags s.backoff fs.length ++ (runIter nf (advanceFail s fs.length) rest).stderr,
        failEvents s.backoff s.consecFails fs.length ++
          (runIter nf (advanceFail s fs.length) rest).events,
        (runIter nf (advanceFail s fs.length) rest).status,
        (runIter nf (advanceFail s fs.length) rest).endState⟩ := by
  induction fs with
  | nil =>
      intro s _ _ rest
      simp [failDiags, failEvents, advanceFail_zero]
  | cons r t ih =>
      intro s hall hlen rest
      have hr : r = .err ∨ r = .null := hall r (List.mem_cons_self r t)
      have hb : s.backoff < 3 := by
        have := hlen
        simp [List.length_cons] at this
        omega
      rw [List.cons_append, runIter_fail_step nf s r (t ++ rest) hr hb]
      have ht : allFail t := fun x hx => hall x (List.mem_cons_of_mem r hx)
      have hlen2 : (advanceFail s 1).backoff + t.length ≤ 3 := by
        simp [advanceFail, List.length_cons] at hlen ⊢
        omega
      rw [ih (advanceFail s 1) ht hlen2 rest]
      rw [advanceFail_shift]
      simp [failDiags, failEvents, advanceFail, List.length_cons]

end DumpWfs

namespace DumpWfs

theorem countAttempts_append (a b : List Event) :
    countAttempts (a ++ b) = countAttempts a + countAttempts b := by
  induction a with
  | nil => simp [countAttempts]
  | cons e t ih => cases e <;> (simp [countAttempts, ih]; try omega)

theorem sleepsIn_append (a b : List Event) :
    sleepsIn (a ++ b) = sleepsIn a ++ sleepsIn b := by
  induction a with
  | nil => simp [sleepsIn]
  | cons e t ih => cases e <;> simp [sleepsIn, ih]

theorem capturesIn_append (a b : List Event) :
    capturesIn (a ++ b) = capturesIn a ++ capturesIn b := by
  induction a with
  | nil => simp [capturesIn]
  | cons e t ih => cases e <;> simp [capturesIn, ih]

theorem extractsIn_append (a b : List Event) :
    extractsIn (a ++ b) = extractsIn a ++ extractsIn b := by
  induction a with
  | nil => simp [extractsIn]
  | cons e t ih => cases e <;> simp [extractsIn, ih]

theorem countAttempts_failEvents (k : Nat) : ∀ b c, countAttempts (failEvents b c k) = k := by
  induction k with
  | zero => intro b c; simp [failEvents, countAttempts]
  | succ k ih => intro b c; simp [failEvents, countAttempts, ih]

theorem sleepsIn_failEvents (k : Nat) : ∀ b c,
    sleepsIn (failEvents b c k) = (List.range k).map (fun i => 2 ^ (b + i)) := by
  induction k with
  | zero => intro b c; simp [failEvents, sleepsIn]
  | succ k ih =>
      intro b c
      rw [List.range_succ_eq_map]
      simp [failEvents, sleepsIn, ih, List.map_map]
      intro a _
      omega

theorem capturesIn_failEvents (k : Nat) : ∀ b c, capturesIn (failEvents b c k) = [] := by
  induction k with
  | zero => intro b c; simp [failEvents, capturesIn]
  | succ k ih => intro b c; simp [failEvents, capturesIn, ih]

theorem extractsIn_failEvents (k : Nat) : ∀ b c, extractsIn (failEvents b c k) = [] := by
  induction k with
  | zero => intro b c; simp [failEvents, extractsIn]
  | succ k ih => intro b c; simp [failEvents, extractsIn, ih]

/-- A failure arriving with the retry budget already spent aborts the run:
one more attempt, no further sleep, `Finished.` and the final count printed. -/
theorem runIter_spent_budget (nf : Nat) (s : IterState) (r : FetchResult)
    (rest : List FetchResult) (hr : r = .err ∨ r = .null) (hb : s.backoff = 3) :
    runIter nf s (r :: rest) =
      ⟨[], [.traceback, .maxRetries 3, .finished, .finalCount s.nFeatures],
        [.attempt 3 s.consecFails], .aborted, s⟩ := by
  rw [runIter_abort nf s r rest hr (by omega), hb]

/-- Never does the loop exit through the dead `if feat is None: break` at the
bottom of the loop body: the `EXHAUSTED` outcome is unreachable, because a
`None` from the cursor raises inside the `try` block instead. -/
theorem runIter_ne_exhausted (nf : Nat) (fs : List FetchResult) :
    ∀ s, (runIter nf s fs).status ≠ .exhausted := by
  induction fs with
  | nil => intro s; simp [runIter]
  | cons r t ih =>
      intro s
      cases r with
      | err =>
          by_cases hb : 3 ≤ s.backoff
          · rw [runIter_abort nf s .err t (Or.inl rfl) hb]; simp
          · rw [runIter_fail_step nf s .err t (Or.inl rfl) (by omega)]
            exact ih _
      | null =>
          by_cases hb : 3 ≤ s.backoff
          · rw [runIter_abort nf s .null t (Or.inr rfl) hb]; simp
          · rw [runIter_fail_step nf s .null t (Or.inr rfl) (by omega)]
            exact ih _
      | ok f =>
          simp only [runIter]
          split
          · simp
          · split
            · simp
            · exact ih _

end DumpWfs

namespace DumpWfs

/-- The estimated feature count feeds only the progress percentage on stderr:
stdout, events, termination status and final state are all independent of it. -/
theorem runIter_count_independent (nf1 nf2 : Nat) (fs : List FetchResult) :
    ∀ s, (runIter nf1 s fs).stdout = (runIter nf2 s fs).stdout ∧
      (runIter nf1 s fs).events = (runIter nf2 s fs).events ∧
      (runIter nf1 s fs).status = (runIter nf2 s fs).status ∧
      (runIter nf1 s fs).endState = (runIter nf2 s fs).endState := by
  induction fs with
  | nil => intro s; simp [runIter]
  | cons r t ih =>
      intro s
      cases r with
      | err =>
          by_cases hb : 3 ≤ s.backoff
          · rw [runIter_abort nf1 s .err t (Or.inl rfl) hb,
              runIter_abort nf2 s .err t (Or.inl rfl) hb]
            simp
          · rw [runIter_fail_step nf1 s .err t (Or.inl rfl) (by omega),
              runIter_fail_step nf2 s .err t (Or.inl rfl) (by omega)]
            have h := ih (advanceFail s 1)
            simp [h.1, h.2.1, h.2.2.1, h.2.2.2]
      | null =>
          by_cases hb : 3 ≤ s.backoff
          · rw [runIter_abort nf1 s .null t (Or.inr rfl) hb,
              runIter_abort nf2 s .null t (Or.inr rfl) hb]
            simp
          · rw [runIter_fail_step nf1 s .null t (Or.inr rfl) (by omega),
              runIter_fail_step nf2 s .null t (Or.inr rfl) (by omega)]
            have h := ih (advanceFail s 1)
            simp [h.1, h.2.1, h.2.2.1, h.2.2.2]
      | ok f =>
          simp only [runIter]
          split
          · simp
          · next ns gs cevs cdgs heq =>
              split
              · simp
              · have h := ih ⟨0, 0, s.nFeatures + 1, some (ns, gs)⟩
                simp [h.1, h.2.1, h.2.2.1, h.2.2.2]

/-- Reachable loop states keep `backoff <= 3`. -/
theorem runIter_endState_backoff (nf : Nat) (fs : List FetchResult) :
    ∀ s, s.backoff ≤ 3 → (runIter nf s fs).endState.backoff ≤ 3 := by
  induction fs with
  | nil => intro s h; simpa [runIter] using h
  | cons r t ih =>
      intro s h
      cases r with
      | err =>
          by_cases hb : 3 ≤ s.backoff
          · rw [runIter_abort nf s .err t (Or.inl rfl) hb]; simpa using h
          · rw [runIter_fail_step nf s .err t (Or.inl rfl) (by omega)]
            exact ih (advanceFail s 1) (by simp [advanceFail]; omega)
      | null =>
          by_cases hb : 3 ≤ s.backoff
          · rw [runIter_abort nf s .null t (Or.inr rfl) hb]; simpa using h
          · rw [runIter_fail_step nf s .null t (Or.inr rfl) (by omega)]
            exact ih (advanceFail s 1) (by simp [advanceFail]; omega)
      | ok f =>
          simp only [runIter]
          split
          · simp
          · split
            · simp
            · exact ih _ (by simp)

/-- Once the schema is cached and the first feature is past, no further
capture happens and every later feature is interpreted with that same cached
schema. -/
theorem runIter_schema_fixed (nf : Nat) (fs : List FetchResult) :
    ∀ s sch, s.nFeatures ≠ 0 → s.schema = some sch →
      capturesIn (runIter nf s fs).events = [] ∧
      (∀ p ∈ extractsIn (runIter nf s fs).events, p = sch) := by
  induction fs with
  | nil => intro s sch h hs; simp [runIter, capturesIn, extractsIn]
  | cons r t ih =>
      intro s sch h hs
      cases r with
      | err =>
          by_cases hb : 3 ≤ s.backoff
          · rw [runIter_abort nf s .err t (Or.inl rfl) hb]
            simp [capturesIn, extractsIn]
          · rw [runIter_fail_step nf s .err t (Or.inl rfl) (by omega)]
            simpa [capturesIn, extractsIn] using
              ih (advanceFail s 1) sch (by simpa [advanceFail] using h) (by simpa [advanceFail] using hs)
      | null =>
          by_cases hb : 3 ≤ s.backoff
          · rw [runIter_abort nf s .null t (Or.inr rfl) hb]
            simp [capturesIn, extractsIn]
          · rw [runIter_fail_step nf s .null t (Or.inr rfl) (by omega)]
            simpa [capturesIn, extractsIn] using
              ih (advanceFail s 1) sch (by simpa [advanceFail] using h) (by simpa [advanceFail] using hs)
      | ok f =>
          obtain ⟨ns0, gs0⟩ := sch
          simp only [runIter, hs, h, if_false]
          split
          · simp [capturesIn, extractsIn]
          · have hx := ih ⟨0, 0, s.nFeatures + 1, some (ns0, gs0)⟩ (ns0, gs0)
              (by simp) (by simp)
            simp [capturesIn, extractsIn] at hx ⊢
            exact hx

end DumpWfs

namespace DumpWfs

/-- From stream start (`n_features == 0`): at most one capture ever happens,
no schema use precedes it, and every schema use equals the unique capture. -/
theorem runIter_capture_once (nf : Nat) (fs : List FetchResult) :
    ∀ s, s.nFeatures = 0 →
      (capturesIn (runIter nf s fs).events).length ≤ 1 ∧
      noExtractBeforeCapture (runIter nf s fs).events = true ∧
      (∀ p ∈ extractsIn (runIter nf s fs).events,
        capturesIn (runIter nf s fs).events = [p]) := by
  induction fs with
  | nil => intro s h0; simp [runIter, capturesIn, extractsIn, noExtractBeforeCapture]
  | cons r t ih =>
      intro s h0
      cases r with
      | err =>
          by_cases hb : 3 ≤ s.backoff
          · rw [runIter_abort nf s .err t (Or.inl rfl) hb]
            simp [capturesIn, extractsIn, noExtractBeforeCapture]
          · rw [runIter_fail_step nf s .err t (Or.inl rfl) (by omega)]
            simpa [capturesIn, extractsIn, noExtractBeforeCapture] using
              ih (advanceFail s 1) (by simpa [advanceFail] using h0)
      | null =>
          by_cases hb : 3 ≤ s.backoff
          · rw [runIter_abort nf s .null t (Or.inr rfl) hb]
            simp [capturesIn, extractsIn, noExtractBeforeCapture]
          · rw [runIter_fail_step nf s .null t (Or.inr rfl) (by omega)]
            simpa [capturesIn, extractsIn, noExtractBeforeCapture] using
              ih (advanceFail s 1) (by simpa [advanceFail] using h0)
      | ok f =>
          simp only [runIter, h0, if_true]
          split
          · simp [capturesIn, extractsIn, noExtractBeforeCapture]
          · have hx := runIter_schema_fixed nf t ⟨0, 0, 1,
              some (f.attrNames, f.geomNames)⟩ (f.attrNames, f.geomNames) (by simp) (by simp)
            have h1 := hx.1
            have h2 := hx.2
            simp [capturesIn, extractsIn, noExtractBeforeCapture, h1] at h2 ⊢
            intro a b hab
            have h3 := h2 a b hab
            exact ⟨h3.1.symm, h3.2.symm⟩

/-- The step the loop takes on the first successful feature when its
processing does not crash: capture, first-feature dump, the feature's lines,
then the loop continues with backoff reset and the schema cached. -/
theorem runIter_ok_first (nf : Nat) (s : IterState) (f : Feature) (rest : List FetchResult)
    (h0 : s.nFeatures = 0) (hclean : cleanFeature f) :
    runIter nf s (.ok f :: rest) =
      ⟨(processGeoms (extractAttrs f.attrNames f) (extractGeoms f.geomNames f)).1 ++
          (runIter nf (succState s f.attrNames f.geomNames) rest).stdout,
        Diag.firstFeature ::
          ((processGeoms (extractAttrs f.attrNames f) (extractGeoms f.geomNames f)).2.1 ++
            (runIter nf (succState s f.attrNames f.geomNames) rest).stderr),
        Event.attempt s.backoff s.consecFails ::
          Event.capture f.attrNames f.geomNames ::
          Event.extract f.attrNames f.geomNames ::
          (runIter nf (succState s f.attrNames f.geomNames) rest).events,
        (runIter nf (succState s f.attrNames f.geomNames) rest).status,
        (runIter nf (succState s f.attrNames f.geomNames) rest).endState⟩ := by
  have hcl : (processGeoms (extractAttrs f.attrNames f) (extractGeoms f.geomNames f)).2.2 = false :=
    hclean
  simp [runIter, h0, hcl, succState, Nat.mod_eq_of_lt]

/-- The step the loop takes on the first successful feature when the
geometry/serialization pipeline raises: the partial lines stay on stdout, no
retry and no sleep happen, nothing more is fetched, and neither `Finished.`
nor the final count is printed. -/
theorem runIter_ok_crash (nf : Nat) (s : IterState) (f : Feature) (rest : List FetchResult)
    (h0 : s.nFeatures = 0)
    (hcrash : (processGeoms (extractAttrs f.attrNames f) (extractGeoms f.geomNames f)).2.2 = true) :
    runIter nf s (.ok f :: rest) =
      ⟨(processGeoms (extractAttrs f.attrNames f) (extractGeoms f.geomNames f)).1,
        Diag.firstFeature ::
          (processGeoms (extractAttrs f.attrNames f) (extractGeoms f.geomNames f)).2.1,
        [Event.attempt s.backoff s.consecFails,
          Event.capture f.attrNames f.geomNames,
          Event.extract f.attrNames f.geomNames],
        .crashed, ⟨0, 0, s.nFeatures, some (f.attrNames, f.geomNames)⟩⟩ := by
  simp [runIter, h0, hcrash]

end DumpWfs

namespace DumpWfs

/-- A feature all of whose geometry fields are null: zero output lines, one
warning per field carrying the feature's attributes, and no crash. -/
theorem processGeoms_all_null (attrs : List (String × Scalar))
    (gl : List (String × Option Geom)) (h : ∀ p ∈ gl, p.2 = none) :
    processGeoms attrs gl = ([], gl.map (fun p => Diag.skipEmptyGeom p.1 attrs), false) := by
  induction gl with
  | nil => rfl
  | cons p t ih =>
      obtain ⟨gname, og⟩ := p
      have hp : og = none := h (gname, og) (List.mem_cons_self _ t)
      subst hp
      have ht : ∀ p ∈ t, p.2 = none := fun q hq => h q (List.mem_cons_of_mem _ hq)
      simp [processGeoms, ih ht]

/-- The null-geometry arm of the per-feature loop, as an equation: the field
is skipped, a warning carrying the feature's attributes is printed, and the
remaining fields are processed unchanged. -/
theorem processGeoms_null_head (attrs : List (String × Scalar)) (gname : String)
    (rest : List (String × Option Geom)) :
    processGeoms attrs ((gname, none) :: rest) =
      ((processGeoms attrs rest).1,
        Diag.skipEmptyGeom gname attrs :: (processGeoms attrs rest).2.1,
        (processGeoms attrs rest).2.2) := rfl

/-- Every line the per-feature loop emits is the serialized record of some
geometry paired with exactly this feature's attribute map. -/
theorem processGeoms_lines_shape (attrs : List (String × Scalar)) :
    ∀ gl : List (String × Option Geom), ∀ l ∈ (processGeoms attrs gl).1,
      ∃ t c, l = recordLine t c attrs := by
  intro gl
  induction gl with
  | nil => intro l hl; simp [processGeoms] at hl
  | cons p t ih =>
      obtain ⟨gname, og⟩ := p
      cases og with
      | none =>
          intro l hl
          rw [processGeoms_null_head] at hl
          exact ih l hl
      | some g =>
          intro l hl
          simp only [processGeoms] at hl
          rcases hg : g.mappingResult with e | tc
          · rw [hg] at hl
            simp at hl
          · rw [hg] at hl
            simp at hl
            rcases hl with h | h
            · exact ⟨tc.1, tc.2, h⟩
            · exact ih l h

/-- When no geometry field's pipeline raises, the per-feature loop emits
exactly one line per non-null geometry field, in schema order. -/
theorem processGeoms_clean (attrs : List (String × Scalar)) :
    ∀ gl : List (String × Option Geom),
      (∀ p ∈ gl, ∀ g, p.2 = some g → ∃ tc, g.mappingResult = Except.ok tc) →
      (processGeoms attrs gl).2.2 = false ∧
      (processGeoms attrs gl).1 = gl.filterMap (fun p =>
        match p.2 with
        | none => none
        | some g =>
          match g.mappingResult with
          | .ok tc => some (recordLine tc.1 tc.2 attrs)
          | .error _ => none) ∧
      (processGeoms attrs gl).1.length = gl.countP (fun p => p.2.isSome) := by
  intro gl
  induction gl with
  | nil => intro h; simp [processGeoms]
  | cons p t ih =>
      intro h
      obtain ⟨gname, og⟩ := p
      have ht := fun q hq => h q (List.mem_cons_of_mem _ hq)
      have iht := ih ht
      cases og with
      | none =>
          rw [processGeoms_null_head]
          refine ⟨iht.1, by simp [iht.2.1], ?_⟩
          simpa [List.countP_cons] using iht.2.2
      | some g =>
          obtain ⟨tc, htc⟩ := h (gname, some g) (List.mem_cons_self _ t) g rfl
          simp only [processGeoms, htc]
          refine ⟨iht.1, ?_, ?_⟩
          · simp [List.filterMap_cons, htc, iht.2.1]
          · simpa [List.countP_cons] using iht.2.2

end DumpWfs

namespace DumpWfs

/-- Every line the whole run writes to stdout is a serialized
type/coordinates/properties record. -/
theorem runIter_stdout_shape (nf : Nat) (fs : List FetchResult) :
    ∀ s, ∀ l ∈ (runIter nf s fs).stdout, ∃ t c A, l = recordLine t c A := by
  induction fs with
  | nil => intro s l hl; simp [runIter] at hl
  | cons r t ih =>
      intro s l hl
      cases r with
      | err =>
          by_cases hb : 3 ≤ s.backoff
          · rw [runIter_abort nf s .err t (Or.inl rfl) hb] at hl
            simp at hl
          · rw [runIter_fail_step nf s .err t (Or.inl rfl) (by omega)] at hl
            exact ih _ l hl
      | null =>
          by_cases hb : 3 ≤ s.backoff
          · rw [runIter_abort nf s .null t (Or.inr rfl) hb] at hl
            simp at hl
          · rw [runIter_fail_step nf s .null t (Or.inr rfl) (by omega)] at hl
            exact ih _ l hl
      | ok f =>
          simp only [runIter] at hl
          revert hl
          split
          · intro hl; simp at hl
          · next ns gs cevs cdgs heq =>
              split
              · intro hl
                simp only [RunOut.stdout] at hl
                obtain ⟨gt, c, h⟩ := processGeoms_lines_shape (extractAttrs ns f)
                  (extractGeoms gs f) l hl
                exact ⟨gt, c, extractAttrs ns f, h⟩
              · intro hl
                simp only [RunOut.stdout] at hl
                rcases List.mem_append.mp hl with h | h
                · obtain ⟨gt, c, hh⟩ := processGeoms_lines_shape (extractAttrs ns f)
                    (extractGeoms gs f) l h
                  exact ⟨gt, c, extractAttrs ns f, hh⟩
                · exact ih _ l h

/-- Runs compose: a cursor prefix the loop consumes entirely (status
`inputEnded`) contributes its output unchanged when more cursor outcomes
follow — already-written lines are never revoked. -/
theorem runIter_append (nf : Nat) (t : List FetchResult) :
    ∀ s u, (runIter nf s t).status = .inputEnded →
    runIter nf s (t ++ u) =
      ⟨(runIter nf s t).stdout ++ (runIter nf (runIter nf s t).endState u).stdout,
        (runIter nf s t).stderr ++ (runIter nf (runIter nf s t).endState u).stderr,
        (runIter nf s t).events ++ (runIter nf (runIter nf s t).endState u).events,
        (runIter nf (runIter nf s t).endState u).status,
        (runIter nf (runIter nf s t).endState u).endState⟩ := by
  induction t with
  | nil => intro s u _; simp [runIter_nil]
  | cons r t ih =>
      intro s u hst
      cases r with
      | err =>
          by_cases hb : 3 ≤ s.backoff
          · rw [runIter_abort nf s .err t (Or.inl rfl) hb] at hst
            simp at hst
          · rw [runIter_fail_step nf s .err t (Or.inl rfl) (by omega)] at hst ⊢
            rw [List.cons_append, runIter_fail_step nf s .err (t ++ u) (Or.inl rfl) (by omega)]
            rw [ih _ u hst]
            simp
      | null =>
          by_cases hb : 3 ≤ s.backoff
          · rw [runIter_abort nf s .null t (Or.inr rfl) hb] at hst
            simp at hst
          · rw [runIter_fail_step nf s .null t (Or.inr rfl) (by omega)] at hst ⊢
            rw [List.cons_append, runIter_fail_step nf s .null (t ++ u) (Or.inr rfl) (by omega)]
            rw [ih _ u hst]
            simp
      | ok f =>
          rw [List.cons_append]
          simp only [runIter] at hst ⊢
          revert hst
          split
          · intro hst; simp at hst
          · next ns gs cevs cdgs heq =>
              split
              · intro hst; simp at hst
              · intro hst
                simp only [RunOut.status] at hst
                rw [ih _ u hst]
                simp

end DumpWfs

namespace DumpWfs

/-- From a fresh backoff state, four or more consecutive failures produce the
full cascade: attempts at levels 0,1,2,3 with sleeps 1,2,4 between them, then
the abort with `Finished.` and the final count — and nothing on stdout. -/
theorem runIter_fail_cascade (nf : Nat) (s : IterState) (fs : List FetchResult)
    (hb : s.backoff = 0) (hc : s.consecFails = 0) (hfail : allFail fs) (h4 : 4 ≤ fs.length) :
    runIter nf s fs =
      ⟨[], failDiags 0 3 ++
          [.traceback, .maxRetries 3, .finished, .finalCount s.nFeatures],
        failEvents 0 0 3 ++ [.attempt 3 3], .aborted, advanceFail s 3⟩ := by
  have hsplit : fs = fs.take 3 ++ fs.drop 3 := (List.take_append_drop 3 fs).symm
  have hdne : fs.drop 3 ≠ [] := by
    intro h
    have := congrArg List.length h
    simp [List.length_drop] at this
    omega
  obtain ⟨r, rest, hr⟩ := List.exists_cons_of_ne_nil hdne
  have htake : allFail (fs.take 3) := fun x hx => hfail x (List.take_subset 3 fs hx)
  have hlen3 : (fs.take 3).length = 3 := by
    simp [List.length_take]
    omega
  have hpre := runIter_fail_prefix nf (fs.take 3) s htake
    (by rw [hlen3, hb]) (fs.drop 3)
  rw [hsplit, hpre, hlen3]
  have hradv : r = .err ∨ r = .null := by
    apply hfail
    rw [hsplit, hr]
    exact List.mem_append_right _ (List.mem_cons_self r rest)
  have hb3 : (advanceFail s 3).backoff = 3 := by simp [advanceFail, hb]
  rw [hr, runIter_spent_budget nf (advanceFail s 3) r rest hradv hb3]
  simp [advanceFail, hb, hc]

/-- At every fetch attempt the backoff level equals the number of consecutive
failures since the last successful advance. -/
theorem runIter_attempt_invariant (nf : Nat) (fs : List FetchResult) :
    ∀ s, s.backoff = s.consecFails →
      ∀ b c, Event.attempt b c ∈ (runIter nf s fs).events → b = c := by
  induction fs with
  | nil => intro s h b c hmem; simp [runIter] at hmem
  | cons r t ih =>
      intro s h b c hmem
      cases r with
      | err =>
          by_cases hb : 3 ≤ s.backoff
          · rw [runIter_abort nf s .err t (Or.inl rfl) hb] at hmem
            simp at hmem
            rw [hmem.1, hmem.2, h]
          · rw [runIter_fail_step nf s .err t (Or.inl rfl) (by omega)] at hmem
            simp at hmem
            rcases hmem with ⟨h1, h2⟩ | hrec
            · rw [h1, h2, h]
            · exact ih (advanceFail s 1) (by simp [advanceFail, h]) b c hrec
      | null =>
          by_cases hb : 3 ≤ s.backoff
          · rw [runIter_abort nf s .null t (Or.inr rfl) hb] at hmem
            simp at hmem
            rw [hmem.1, hmem.2, h]
          · rw [runIter_fail_step nf s .null t (Or.inr rfl) (by omega)] at hmem
            simp at hmem
            rcases hmem with ⟨h1, h2⟩ | hrec
            · rw [h1, h2, h]
            · exact ih (advanceFail s 1) (by simp [advanceFail, h]) b c hrec
      | ok f =>
          simp only [runIter] at hmem
          revert hmem
          split
          · intro hmem
            simp at hmem
            rw [hmem.1, hmem.2, h]
          · next ns gs cevs cdgs heq =>
              have hcevs : cevs = [] ∨ cevs = [Event.capture f.attrNames f.geomNames] := by
                revert heq
                split
                · intro heq2
                  injection heq2 with heq3
                  injection heq3
                  rename_i hrest
                  injection hrest with h4 hrest2
                  injection hrest2 with h5 _
                  right
                  exact h5.symm
                · split
                  · intro heq2
                    injection heq2 with heq3
                    injection heq3
                    rename_i hrest
                    injection hrest with h4 hrest2
                    injection hrest2 with h5 _
                    left
                    exact h5.symm
                  · intro heq2
                    cases heq2
              split
              · intro hmem
                simp at hmem
                rcases hmem with ⟨h1, h2⟩ | hrec
                · rw [h1, h2, h]
                · rcases hcevs with hc | hc <;> rw [hc] at hrec <;> simp at hrec
              · intro hmem
                simp at hmem
                rcases hmem with ⟨h1, h2⟩ | hrec
                · rw [h1, h2, h]
                · rcases hcevs with hc | hc <;> rw [hc] at hrec <;> simp at hrec <;>
                    exact ih _ (by simp) b c hrec

end DumpWfs

namespace DumpWfs

/-- Every warning the per-feature loop prints is a skip-empty-geometry
warning carrying the feature's attribute map. -/
theorem processGeoms_warnings_shape (attrs : List (String × Scalar)) :
    ∀ gl : List (String × Option Geom), ∀ d ∈ (processGeoms attrs gl).2.1,
      ∃ gname, d = Diag.skipEmptyGeom gname attrs := by
  intro gl
  induction gl with
  | nil => intro d hd; simp [processGeoms] at hd
  | cons p t ih =>
      obtain ⟨gname, og⟩ := p
      cases og with
      | none =>
          intro d hd
          rw [processGeoms_null_head] at hd
          rcases List.mem_cons.mp hd with h | h
          · exact ⟨gname, h⟩
          · exact ih d h
      | some g =>
          intro d hd
          simp only [processGeoms] at hd
          rcases hg : g.mappingResult with e | tc <;> rw [hg] at hd
          · simp at hd
          · simp at hd
            exact ih d hd

theorem getD_none_of_all_none (l : List (Option Geom)) (h : ∀ og ∈ l, og = none) (i : Nat) :
    l.getD i none = none := by
  rw [List.getD_eq_getElem?_getD]
  rcases hl : l[i]? with _ | x
  · rfl
  · have : x ∈ l := by
      have := List.getElem?_mem hl
      exact this
    simp [h x this]

/-- A feature all of whose geometry field values are null extracts to an
all-null geometry field list under any cached name list. -/
theorem extractGeoms_all_none (gnames : List String) (f : Feature)
    (h : ∀ og ∈ f.geomValues, og = none) :
    ∀ p ∈ extractGeoms gnames f, p.2 = none := by
  intro p hp
  simp only [extractGeoms, List.mem_map] at hp
  obtain ⟨q, _, hq⟩ := hp
  rw [← hq]
  exact getD_none_of_all_none f.geomValues h q.1

/-- A run over failures only writes nothing to stdout, and aborts as soon as
the failures outlast the remaining budget. -/
theorem runIter_allFail_out (nf : Nat) (fs : List FetchResult) :
    ∀ s, allFail fs → s.backoff ≤ 3 →
      (runIter nf s fs).stdout = [] ∧
      (4 - s.backoff ≤ fs.length → (runIter nf s fs).status = .aborted) := by
  induction fs with
  | nil =>
      intro s _ hb
      refine ⟨by simp [runIter], ?_⟩
      intro h
      simp at h
      omega
  | cons r t ih =>
      intro s hall hb
      have hr : r = .err ∨ r = .null := hall r (List.mem_cons_self r t)
      have ht : allFail t := fun x hx => hall x (List.mem_cons_of_mem r hx)
      by_cases hb3 : 3 ≤ s.backoff
      · rw [runIter_abort nf s r t hr hb3]
        exact ⟨rfl, fun _ => rfl⟩
      · rw [runIter_fail_step nf s r t hr (by omega)]
        have hrec := ih (advanceFail s 1) ht (by simp [advanceFail]; omega)
        refine ⟨hrec.1, ?_⟩
        intro hlen
        apply hrec.2
        simp [advanceFail, List.length_cons] at hlen ⊢
        omega

end DumpWfs

namespace DumpWfs

/-! ## Claims -/

/-- C1 counterexample: a run in which the iterator exceeds the retry budget
and transitions to ABORTED terminates with exit status 0, not 1 — the script
merely breaks out of the loop and falls off the end of the module; no
`sys.exit(1)` runs on that path. -/
theorem claim1_counterexample :
    (streamRun none 0 [FetchResult.err, FetchResult.err, FetchResult.err,
        FetchResult.err]).status = Status.aborted ∧
    mainExit (Invocation.stream none 0 [FetchResult.err, FetchResult.err, FetchResult.err,
        FetchResult.err]) = 0 := by
  decide

/-- C1 (amended): the process exits 1 only on the usage error (or an
uncaught exception, status `crashed`); layer-listing mode exits 0; a
streaming run exits 0 whether the iterator ends by ABORTED or by running out
of data — and an abort appended after a fully consumed prefix preserves every
NDJSON line the prefix wrote. -/
theorem claim1_exit_status (filt : Option String) (cnt : Nat) (trace : List FetchResult) :
    mainExit Invocation.usage = 1 ∧
    (∀ n, mainExit (Invocation.listing n) = 0) ∧
    ((streamRun filt cnt trace).status ≠ Status.crashed →
      mainExit (Invocation.stream filt cnt trace) = 0) ∧
    ((streamRun filt cnt trace).status = Status.inputEnded →
      (streamRun filt cnt (trace ++ List.replicate 4 FetchResult.err)).status = Status.aborted ∧
      (streamRun filt cnt (trace ++ List.replicate 4 FetchResult.err)).stdout =
        (streamRun filt cnt trace).stdout) := by
  refine ⟨rfl, fun n => rfl, ?_, ?_⟩
  · intro h
    show exitCode (streamRun filt cnt trace).status = 0
    cases hs : (streamRun filt cnt trace).status
    · rfl
    · rfl
    · exact absurd hs h
    · rfl
  · intro h
    have happ := runIter_append (estimatedCount filt cnt).1 trace initState
      (List.replicate 4 FetchResult.err) h
    have hb3 : (runIter (estimatedCount filt cnt).1 initState trace).endState.backoff ≤ 3 :=
      runIter_endState_backoff _ trace initState (by simp [initState])
    have hfail : allFail (List.replicate 4 FetchResult.err) := by
      intro r hr
      rw [List.eq_of_mem_replicate hr]
      exact Or.inl rfl
    have hout := runIter_allFail_out (estimatedCount filt cnt).1
      (List.replicate 4 FetchResult.err)
      ((runIter (estimatedCount filt cnt).1 initState trace).endState) hfail hb3
    constructor
    · show (runIter (estimatedCount filt cnt).1 initState
        (trace ++ List.replicate 4 FetchResult.err)).status = Status.aborted
      rw [happ]
      exact hout.2 (by simp)
    · show (runIter (estimatedCount filt cnt).1 initState
        (trace ++ List.replicate 4 FetchResult.err)).stdout =
        (runIter (estimatedCount filt cnt).1 initState trace).stdout
      rw [happ]
      rw [hout.1, List.append_nil]

/-- C1 witness: a clean one-feature run exits 0, and appending a retry-budget
abort to it keeps its stdout and ends ABORTED. -/
theorem claim1_exit_status_witness :
    mainExit (Invocation.stream none 5 [FetchResult.ok featA]) = 0 ∧
    (streamRun none 5 ([FetchResult.ok featA] ++ List.replicate 4 FetchResult.err)).status =
      Status.aborted := by
  constructor
  · exact (claim1_exit_status none 5 [FetchResult.ok featA]).2.2.1 (by decide)
  · exact ((claim1_exit_status none 5 [FetchResult.ok featA]).2.2.2 (by decide)).1

/-- C2: for every N ≥ 1, a run of N consecutive fetch failures (raised
transient errors or unexpected null features, in any mixture) from stream
start performs exactly min(N,4) fetch attempts — the initial attempt plus up
to 3 retries — sleeping 1, 2, 4 time units between successive attempts, and
aborts upon the 4th consecutive failure without sleeping again. -/
theorem claim2_backoff_bound (N : Nat) (hN : 1 ≤ N) (nf : Nat) (fs : List FetchResult)
    (hlen : fs.length = N) (hfail : allFail fs) :
    countAttempts (runIter nf initState fs).events = min N 4 ∧
    sleepsIn (runIter nf initState fs).events = [1, 2, 4].take (min N 3) ∧
    (4 ≤ N → (runIter nf initState fs).status = Status.aborted) := by
  by_cases h4 : 4 ≤ N
  · rw [runIter_fail_cascade nf initState fs rfl rfl hfail (by omega)]
    refine ⟨?_, ?_, fun _ => rfl⟩
    · show countAttempts (failEvents 0 0 3 ++ [Event.attempt 3 3]) = min N 4
      rw [countAttempts_append, countAttempts_failEvents]
      simp [countAttempts]
      omega
    · show sleepsIn (failEvents 0 0 3 ++ [Event.attempt 3 3]) = [1, 2, 4].take (min N 3)
      rw [sleepsIn_append, sleepsIn_failEvents]
      have hmin : min N 3 = 3 := by omega
      rw [hmin]
      decide
  · have hle : N ≤ 3 := by omega
    have hfp := runIter_fail_prefix nf fs initState hfail (by simp [initState]; omega) []
    rw [List.append_nil] at hfp
    rw [hfp]
    refine ⟨?_, ?_, fun h => absurd h h4⟩
    · show countAttempts (failEvents 0 0 fs.length ++
        (runIter nf (advanceFail initState fs.length) []).events) = min N 4
      rw [runIter_nil, countAttempts_append, countAttempts_failEvents]
      simp [countAttempts, hlen]
      omega
    · show sleepsIn (failEvents 0 0 fs.length ++
        (runIter nf (advanceFail initState fs.length) []).events) = [1, 2, 4].take (min N 3)
      rw [runIter_nil, sleepsIn_append, sleepsIn_failEvents, hlen]
      have hmin : min N 3 = N := by omega
      rw [hmin]
      interval_cases N
      · decide
      · decide
      · decide

/-- C2 witness: five consecutive failures (mixing raised errors and null
returns) from stream start make exactly 4 attempts, sleep 1, 2, 4, and
abort. -/
theorem claim2_backoff_bound_witness :
    countAttempts (runIter 0 initState [FetchResult.err, FetchResult.null, FetchResult.err,
        FetchResult.err, FetchResult.null]).events = min 5 4 ∧
    sleepsIn (runIter 0 initState [FetchResult.err, FetchResult.null, FetchResult.err,
        FetchResult.err, FetchResult.null]).events = [1, 2, 4].take (min 5 3) ∧
    (4 ≤ 5 → (runIter 0 initState [FetchResult.err, FetchResult.null, FetchResult.err,
        FetchResult.err, FetchResult.null]).status = Status.aborted) :=
  claim2_backoff_bound 5 (by omega) 0 _ rfl (by
    intro r hr
    simp at hr
    tauto)

/-- C3 counterexample: when the cursor signals end-of-data (the only signal
it has: a null return), the iterator does not transition to EXHAUSTED — it
sleeps and retries, refuting the claimed direct FETCHING → EXHAUSTED
transition with no sleep. -/
theorem claim3_counterexample :
    (runIter 0 initState [FetchResult.null]).events = [Event.attempt 0 0, Event.sleep 1] ∧
    (runIter 0 initState [FetchResult.null]).status ≠ Status.exhausted := by
  decide

/-- C3 (amended): the script cannot distinguish a true end-of-data signal
from an anomalous null — `GetNextFeature` returning `None` raises inside the
`try` block, so end-of-data engages backoff like any transient failure; the
`FETCHING → EXHAUSTED` branch below the `try` is dead code, unreachable in
every run; end-of-data therefore terminates the stream through ABORTED after
the retry budget, and the summary diagnostics (`Finished.`, final count) are
emitted on that termination. -/
theorem claim3_no_exhausted (nf : Nat) (s : IterState) (fs : List FetchResult) :
    (runIter nf s fs).status ≠ Status.exhausted ∧
    ((runIter nf initState (List.replicate 4 FetchResult.null)).status = Status.aborted ∧
      Diag.finished ∈ (runIter nf initState (List.replicate 4 FetchResult.null)).stderr ∧
      Diag.finalCount 0 ∈ (runIter nf initState (List.replicate 4 FetchResult.null)).stderr) := by
  refine ⟨runIter_ne_exhausted nf fs s, ?_⟩
  have hfail : allFail (List.replicate 4 FetchResult.null) := by
    intro r hr
    rw [List.eq_of_mem_replicate hr]
    exact Or.inr rfl
  have hc := runIter_fail_cascade nf initState (List.replicate 4 FetchResult.null)
    rfl rfl hfail (by simp)
  rw [hc]
  refine ⟨rfl, ?_, ?_⟩ <;> simp [failDiags, initState]

end DumpWfs

namespace DumpWfs

/-- C4: every stdout line is the compact serialization of a JSON object of
the form `{"type": ..., "coordinates": ..., "properties": ...}`, contains no
newline itself (single-line), is followed by exactly one newline when
emitted; within one feature every line carries that feature's attribute map
as `properties`; and scalar attribute values embed into JSON injectively
(string/number/boolean/null preserved exactly). -/
theorem claim4_ndjson_validity (nf : Nat) (s : IterState) (fs : List FetchResult) :
    (∀ l ∈ (runIter nf s fs).stdout,
        (∃ t c A, l = recordLine t c A) ∧ '\n' ∉ l.data ∧
        (emitLine l).data.count '\n' = 1) ∧
    (∀ attrs gl, ∀ l ∈ (processGeoms attrs gl).1, ∃ t c, l = recordLine t c attrs) ∧
    (∀ t c A, recordLine t c A = serialize (recordJson t c A) ∧
        recordJson t c A = Json.obj [("type", Json.str t), ("coordinates", c),
          ("properties", attrsJson A)] ∧
        attrsJson A = Json.obj (A.map (fun p => (p.1, scalarToJson p.2)))) ∧
    (∀ a b : Scalar, scalarToJson a = scalarToJson b → a = b) := by
  refine ⟨?_, ?_, fun t c A => ⟨rfl, rfl, rfl⟩, ?_⟩
  · intro l hl
    obtain ⟨t, c, A, h⟩ := runIter_stdout_shape nf fs s l hl
    subst h
    exact ⟨⟨t, c, A, rfl⟩, recordLine_no_newline t c A,
      emitLine_one_newline _ (recordLine_no_newline t c A)⟩
  · intro attrs gl l hl
    exact processGeoms_lines_shape attrs gl l hl
  · intro a b h
    cases a <;> cases b <;> simp_all [scalarToJson]

/-- C4 witness: the line of a concrete one-feature run has the record shape,
no inner newline, and exactly one newline when emitted. -/
theorem claim4_ndjson_validity_witness :
    (∃ t c A, recordLine "Point" (Json.arr [Json.num 5, Json.num 6]) attrsA =
      recordLine t c A) ∧
    '\n' ∉ (recordLine "Point" (Json.arr [Json.num 5, Json.num 6]) attrsA).data ∧
    (emitLine (recordLine "Point" (Json.arr [Json.num 5, Json.num 6]) attrsA)).data.count
      '\n' = 1 := by
  have hmem : recordLine "Point" (Json.arr [Json.num 5, Json.num 6]) attrsA ∈
      (runIter 0 initState [FetchResult.ok featA]).stdout := by
    simp [runIter, initState, featA, geomA, attrsA, processGeoms, extractAttrs, extractGeoms,
      List.enum]
  exact (claim4_ndjson_validity 0 initState [FetchResult.ok featA]).1 _ hmem

/-- C5: in every scan the schema is captured at most once; no extraction
precedes the capture; every feature of the stream is interpreted with
exactly the captured schema; and when the stream's first fetched feature is
`f` (after at most 3 leading failures), the captured schema is the attribute
and geometry field name lists of `f`, in field order. -/
theorem claim5_schema_capture (nf : Nat) (fs : List FetchResult) :
    (capturesIn (runIter nf initState fs).events).length ≤ 1 ∧
    noExtractBeforeCapture (runIter nf initState fs).events = true ∧
    (∀ p ∈ extractsIn (runIter nf initState fs).events,
      capturesIn (runIter nf initState fs).events = [p]) ∧
    (∀ pre f rest, fs = pre ++ FetchResult.ok f :: rest → allFail pre → pre.length ≤ 3 →
      capturesIn (runIter nf initState fs).events = [(f.attrNames, f.geomNames)]) := by
  have hco := runIter_capture_once nf fs initState rfl
  refine ⟨hco.1, hco.2.1, hco.2.2, ?_⟩
  intro pre f rest hfs hpre hlen
  subst hfs
  have hfp := runIter_fail_prefix nf pre initState hpre (by simp [initState]; omega)
    (FetchResult.ok f :: rest)
  rw [hfp]
  have hadv : advanceFail initState pre.length =
      (⟨pre.length, pre.length, 0, none⟩ : IterState) := by
    simp [advanceFail, initState]
  rw [hadv]
  show capturesIn (failEvents 0 0 pre.length ++
    (runIter nf ⟨pre.length, pre.length, 0, none⟩ (FetchResult.ok f :: rest)).events) =
    [(f.attrNames, f.geomNames)]
  rw [capturesIn_append, capturesIn_failEvents, List.nil_append]
  by_cases hcr : (processGeoms (extractAttrs f.attrNames f)
      (extractGeoms f.geomNames f)).2.2 = true
  · rw [runIter_ok_crash nf ⟨pre.length, pre.length, 0, none⟩ f rest rfl hcr]
    simp [capturesIn]
  · have hclean : cleanFeature f := by
      show _ = false
      exact Bool.not_eq_true _ ▸ (by simpa using hcr)
    rw [runIter_ok_first nf ⟨pre.length, pre.length, 0, none⟩ f rest rfl hclean]
    have hfix := runIter_schema_fixed nf rest
      (succState ⟨pre.length, pre.length, 0, none⟩ f.attrNames f.geomNames)
      (f.attrNames, f.geomNames) (by simp [succState]) (by simp [succState])
    simp [capturesIn, hfix.1]

/-- C5 witness: after one leading failure, the schema captured by a concrete
run is the first feature's field name lists. -/
theorem claim5_schema_capture_witness :
    capturesIn (runIter 0 initState [FetchResult.err, FetchResult.ok featA]).events =
      [(featA.attrNames, featA.geomNames)] :=
  (claim5_schema_capture 0 [FetchResult.err, FetchResult.ok featA]).2.2.2
    [FetchResult.err] featA [] rfl
    (by intro r hr; simp at hr; simp [hr]) (by decide)

end DumpWfs

namespace DumpWfs

/-- C6: a null geometry field is skipped with a warning that carries the
feature's attribute map while the remaining fields still produce their
lines; a feature whose geometry fields are all null produces zero output
lines and one warning per field without crashing; and such a feature leaves
the iterator exactly as any successful feature does — backoff reset, no
sleep, no abort, subsequent processing unchanged. -/
theorem claim6_null_geometry :
    (∀ attrs gname rest, processGeoms attrs ((gname, none) :: rest) =
        ((processGeoms attrs rest).1,
          Diag.skipEmptyGeom gname attrs :: (processGeoms attrs rest).2.1,
          (processGeoms attrs rest).2.2)) ∧
    (∀ attrs gl, (∀ p ∈ gl, p.2 = none) →
        processGeoms attrs gl = ([], gl.map (fun p => Diag.skipEmptyGeom p.1 attrs), false)) ∧
    (∀ nf (s : IterState) f rest, s.nFeatures = 0 → (∀ og ∈ f.geomValues, og = none) →
        (runIter nf s (FetchResult.ok f :: rest)).stdout =
          (runIter nf (succState s f.attrNames f.geomNames) rest).stdout ∧
        (runIter nf s (FetchResult.ok f :: rest)).status =
          (runIter nf (succState s f.attrNames f.geomNames) rest).status ∧
        (runIter nf s (FetchResult.ok f :: rest)).events =
          Event.attempt s.backoff s.consecFails :: Event.capture f.attrNames f.geomNames ::
            Event.extract f.attrNames f.geomNames ::
            (runIter nf (succState s f.attrNames f.geomNames) rest).events ∧
        (runIter nf s (FetchResult.ok f :: rest)).stderr =
          Diag.firstFeature ::
            ((extractGeoms f.geomNames f).map
                (fun p => Diag.skipEmptyGeom p.1 (extractAttrs f.attrNames f)) ++
              (runIter nf (succState s f.attrNames f.geomNames) rest).stderr)) := by
  refine ⟨fun attrs gname rest => rfl, fun attrs gl h => processGeoms_all_null attrs gl h, ?_⟩
  intro nf s f rest h0 hnull
  have hex := extractGeoms_all_none f.geomNames f hnull
  have hall := processGeoms_all_null (extractAttrs f.attrNames f)
    (extractGeoms f.geomNames f) hex
  have hclean : cleanFeature f := by
    show _ = false
    rw [hall]
  rw [runIter_ok_first nf s f rest h0 hclean, hall]
  exact ⟨rfl, rfl, rfl, rfl⟩

/-- C6 witness: a concrete feature whose only geometry field is null yields
the same stdout and status as skipping straight to the rest of the stream. -/
theorem claim6_null_geometry_witness :
    (runIter 0 initState [FetchResult.ok featNullGeom]).stdout =
      (runIter 0 (succState initState featNullGeom.attrNames featNullGeom.geomNames) []).stdout ∧
    (runIter 0 initState [FetchResult.ok featNullGeom]).status =
      (runIter 0 (succState initState featNullGeom.attrNames featNullGeom.geomNames) []).status := by
  have h := claim6_null_geometry.2.2 0 initState featNullGeom [] rfl
    (by intro og hog; simp [featNullGeom] at hog; exact hog)
  exact ⟨h.1, h.2.1⟩

/-- C7: at every fetch attempt the backoff level equals the number of
consecutive failures since the last successful advance (so every success
resets it to 0), and after any k ≤ 3 failures followed by a success, a fresh
run of failures again sleeps 1, 2, 4 from the start before aborting. -/
theorem claim7_backoff_reset (nf : Nat) :
    (∀ fs (s : IterState), s.backoff = s.consecFails →
        ∀ b c, Event.attempt b c ∈ (runIter nf s fs).events → b = c) ∧
    (∀ k pre f post, k ≤ 3 → allFail pre → pre.length = k → cleanFeature f →
        allFail post → 4 ≤ post.length →
        sleepsIn (runIter nf initState
            (pre ++ FetchResult.ok f :: post)).events = [1, 2, 4].take k ++ [1, 2, 4] ∧
        (runIter nf initState (pre ++ FetchResult.ok f :: post)).status = Status.aborted) := by
  constructor
  · intro fs s h b c hmem
    exact runIter_attempt_invariant nf fs s h b c hmem
  · intro k pre f post hk hpre hlen hclean hpost h4
    have hfp := runIter_fail_prefix nf pre initState hpre (by simp [initState]; omega)
      (FetchResult.ok f :: post)
    rw [hfp, hlen]
    have hadv : advanceFail initState k = (⟨k, k, 0, none⟩ : IterState) := by
      simp [advanceFail, initState]
    rw [hadv]
    rw [runIter_ok_first nf ⟨k, k, 0, none⟩ f post rfl hclean]
    have hsucc : succState (⟨k, k, 0, none⟩ : IterState) f.attrNames f.geomNames =
        (⟨0, 0, 1, some (f.attrNames, f.geomNames)⟩ : IterState) := by
      simp [succState]
    rw [hsucc]
    rw [runIter_fail_cascade nf ⟨0, 0, 1, some (f.attrNames, f.geomNames)⟩ post rfl rfl
      hpost h4]
    constructor
    · show sleepsIn (failEvents 0 0 k ++ _) = _
      rw [sleepsIn_append]
      rw [show sleepsIn (Event.attempt k k :: Event.capture f.attrNames f.geomNames ::
          Event.extract f.attrNames f.geomNames ::
          (failEvents 0 0 3 ++ [Event.attempt 3 3])) =
          sleepsIn (failEvents 0 0 3 ++ [Event.attempt 3 3]) from rfl]
      rw [sleepsIn_append, sleepsIn_failEvents, sleepsIn_failEvents]
      interval_cases k <;> decide
    · rfl

/-- C7 witness: two failures, a clean success, then four failures: the
sleeps are 1, 2 then 1, 2, 4 again, and the run aborts. -/
theorem claim7_backoff_reset_witness :
    sleepsIn (runIter 0 initState ([FetchResult.err, FetchResult.null] ++
        FetchResult.ok featA :: List.replicate 4 FetchResult.err)).events =
      [1, 2, 4].take 2 ++ [1, 2, 4] ∧
    (runIter 0 initState ([FetchResult.err, FetchResult.null] ++
        FetchResult.ok featA :: List.replicate 4 FetchResult.err)).status =
      Status.aborted :=
  (claim7_backoff_reset 0).2 2 [FetchResult.err, FetchResult.null] featA
    (List.replicate 4 FetchResult.err) (by omega)
    (by intro r hr; simp at hr; tauto) rfl (by unfold cleanFeature; decide)
    (by intro r hr; rw [List.eq_of_mem_replicate hr]; exact Or.inl rfl) (by simp)

/-- C8: with a server-side filter the exact count query is skipped and the
sentinel 1,000,000 is substituted; without a filter the exact count is
queried; and the estimated count influences nothing but the stderr progress
line — two runs over the same cursor differing only in the estimate produce
identical stdout, events, status and final state. -/
theorem claim8_sentinel_count :
    (∀ flt cnt, estimatedCount (some flt) cnt = (1000000, false)) ∧
    (∀ cnt, estimatedCount none cnt = (cnt, true)) ∧
    (∀ nf1 nf2 (s : IterState) fs,
      (runIter nf1 s fs).stdout = (runIter nf2 s fs).stdout ∧
      (runIter nf1 s fs).events = (runIter nf2 s fs).events ∧
      (runIter nf1 s fs).status = (runIter nf2 s fs).status ∧
      (runIter nf1 s fs).endState = (runIter nf2 s fs).endState) ∧
    (∀ f1 c1 f2 c2 trace,
      (streamRun f1 c1 trace).stdout = (streamRun f2 c2 trace).stdout ∧
      (streamRun f1 c1 trace).status = (streamRun f2 c2 trace).status) := by
  refine ⟨fun flt cnt => rfl, fun cnt => rfl,
    fun nf1 nf2 s fs => runIter_count_independent nf1 nf2 fs s, ?_⟩
  intro f1 c1 f2 c2 trace
  have h := runIter_count_independent (estimatedCount f1 c1).1 (estimatedCount f2 c2).1
    trace initState
  exact ⟨h.1, h.2.2.1⟩

/-- C9: for a feature with m non-null geometry fields out of g (and a
healthy pipeline), exactly m NDJSON lines are written — one per non-null
field, in cached schema order — and each carries the feature's single
attribute map; at the stream level a successful feature contributes exactly
its per-feature lines, in order, before the rest of the stream's lines. -/
theorem claim9_lines_per_feature (attrs : List (String × Scalar))
    (gl : List (String × Option Geom))
    (hclean : ∀ p ∈ gl, ∀ g : Geom, p.2 = some g → ∃ tc, g.mappingResult = Except.ok tc) :
    (processGeoms attrs gl).1.length = gl.countP (fun p => p.2.isSome) ∧
    (processGeoms attrs gl).1 = gl.filterMap (fun p =>
        match p.2 with
        | none => none
        | some g =>
          match g.mappingResult with
          | .ok tc => some (recordLine tc.1 tc.2 attrs)
          | .error _ => none) ∧
    (∀ l ∈ (processGeoms attrs gl).1, ∃ t c, l = recordLine t c attrs) ∧
    (∀ nf (s : IterState) f rest, s.nFeatures = 0 → cleanFeature f →
        (runIter nf s (FetchResult.ok f :: rest)).stdout =
          (processGeoms (extractAttrs f.attrNames f) (extractGeoms f.geomNames f)).1 ++
            (runIter nf (succState s f.attrNames f.geomNames) rest).stdout) := by
  have hpc := processGeoms_clean attrs gl hclean
  refine ⟨hpc.2.2, hpc.2.1, fun l hl => processGeoms_lines_shape attrs gl l hl, ?_⟩
  intro nf s f rest h0 hcl
  rw [runIter_ok_first nf s f rest h0 hcl]

/-- C9 witness: a concrete two-field list (one usable geometry, one null)
yields exactly one line, and a concrete clean feature's run-level stdout
decomposes into its own lines followed by the rest. -/
theorem claim9_lines_per_feature_witness :
    (processGeoms attrsA glA).1.length = glA.countP (fun p => p.2.isSome) ∧
    (runIter 0 initState [FetchResult.ok featA]).stdout =
      (processGeoms (extractAttrs featA.attrNames featA)
          (extractGeoms featA.geomNames featA)).1 ++
        (runIter 0 (succState initState featA.attrNames featA.geomNames) []).stdout := by
  constructor
  · refine (claim9_lines_per_feature attrsA glA ?_).1
    intro p hp g hg
    simp [glA] at hp
    rcases hp with h | h
    · rw [h] at hg
      simp at hg
      exact ⟨("Point", Json.arr [Json.num 5, Json.num 6]), by rw [← hg]; rfl⟩
    · rw [h] at hg
      simp at hg
  · exact (claim9_lines_per_feature [] [] (by simp)).2.2.2 0 initState featA [] rfl
      (by unfold cleanFeature; decide)

/-- C10: only the cursor advance is protected by the retry handler — when
the geometry/serialization pipeline of a feature raises, the run ends
`crashed` (nonzero exit) immediately: no sleep, no further fetch attempt, no
`Finished.` and no final-count summary on stderr, while lines already
written (including the crashing feature's earlier fields) remain on stdout;
a failing fetch, by contrast, is caught and retried. -/
theorem claim10_try_scope (nf : Nat) (s : IterState) (f : Feature) (rest : List FetchResult)
    (h0 : s.nFeatures = 0)
    (hcrash : (processGeoms (extractAttrs f.attrNames f)
      (extractGeoms f.geomNames f)).2.2 = true) :
    (runIter nf s (FetchResult.ok f :: rest)).status = Status.crashed ∧
    exitCode (runIter nf s (FetchResult.ok f :: rest)).status = 1 ∧
    (runIter nf s (FetchResult.ok f :: rest)).events =
      [Event.attempt s.backoff s.consecFails, Event.capture f.attrNames f.geomNames,
        Event.extract f.attrNames f.geomNames] ∧
    sleepsIn (runIter nf s (FetchResult.ok f :: rest)).events = [] ∧
    countAttempts (runIter nf s (FetchResult.ok f :: rest)).events = 1 ∧
    Diag.finished ∉ (runIter nf s (FetchResult.ok f :: rest)).stderr ∧
    (∀ n, Diag.finalCount n ∉ (runIter nf s (FetchResult.ok f :: rest)).stderr) ∧
    (runIter nf s (FetchResult.ok f :: rest)).stdout =
      (processGeoms (extractAttrs f.attrNames f) (extractGeoms f.geomNames f)).1 ∧
    (∀ r rest2, (r = FetchResult.err ∨ r = FetchResult.null) → s.backoff < 3 →
      (runIter nf s (r :: rest2)).status =
        (runIter nf (advanceFail s 1) rest2).status) := by
  rw [runIter_ok_crash nf s f rest h0 hcrash]
  refine ⟨rfl, rfl, rfl, by simp [sleepsIn], by simp [countAttempts], ?_, ?_, rfl, ?_⟩
  · intro hmem
    rcases List.mem_cons.mp hmem with h | h
    · simp at h
    · obtain ⟨g, hg⟩ := processGeoms_warnings_shape _ _ _ h
      simp at hg
  · intro n hmem
    rcases List.mem_cons.mp hmem with h | h
    · simp at h
    · obtain ⟨g, hg⟩ := processGeoms_warnings_shape _ _ _ h
      simp at hg
  · intro r rest2 hr hb
    rw [runIter_fail_step nf s r rest2 hr hb]

/-- C10 witness: a concrete feature with a raising pipeline crashes the run
with exit status 1 and no summary. -/
theorem claim10_try_scope_witness :
    (runIter 0 initState [FetchResult.ok featCrash]).status = Status.crashed ∧
    exitCode (runIter 0 initState [FetchResult.ok featCrash]).status = 1 ∧
    Diag.finished ∉ (runIter 0 initState [FetchResult.ok featCrash]).stderr := by
  have h := claim10_try_scope 0 initState featCrash [] rfl (by decide)
  exact ⟨h.1, h.2.1, h.2.2.2.2.2.1⟩

end DumpWfs
